import Mathlib

/-!
Verification development for the cross-tab communication library
(moe-cross-tabs.cjs.js).  JavaScript strings are modelled as List Char,
JS numbers used by the code as exact integers, and the stateful parts
(tab registry, parent polling loop, child handshake machine) as explicit
state-passing functions translated statement by statement from the source.
-/

namespace XTabs

/-!
String primitives.

startsWithSeq pat s decides whether pat is a prefix of s.
jsFindSplit sep s models locating the first occurrence of sep in s:
it returns the text before the occurrence and the text after it, or
none when there is no occurrence (JS indexOf === -1).
jsSplitSecond sep s models the expression s.split(sep)[1] used by the
source: the chunk between the first occurrence of sep and the next one
(or the end of the string), none when sep does not occur at all.
-/

def startsWithSeq : List Char → List Char → Bool
  | [], _ => true
  | _ :: _, [] => false
  | a :: as, b :: bs => a == b && startsWithSeq as bs

def jsFindSplit (sep : List Char) : List Char → Option (List Char × List Char)
  | [] => none
  | c :: rest =>
    if startsWithSeq sep (c :: rest) then some ([], (c :: rest).drop sep.length)
    else
      match jsFindSplit sep rest with
      | none => none
      | some (pre, post) => some (c :: pre, post)

def jsSplitSecond (sep data : List Char) : Option (List Char) :=
  match jsFindSplit sep data with
  | none => none
  | some (_, post) =>
    match jsFindSplit sep post with
    | none => some post
    | some (pre2, _) => some pre2

/-! Event tags (PostMessageEventNamesEnum) and tab statuses (TabStatusEnum). -/

def LOADED : List Char := "__TAB__LOADED_EVENT__".data

def CUSTOM : List Char := "__TAB__CUSTOM_EVENT__".data

def HANDSHAKE : List Char := "__TAB__HANDSHAKE_EVENT__".data

def ON_BEFORE_UNLOAD : List Char := "__TAB__ON_BEFORE_UNLOAD__".data

def PARENT_DISCONNECTED : List Char := "__PARENT_DISCONNECTED__".data

def HANDSHAKE_WITH_PARENT : List Char := "__HANDSHAKE_WITH_PARENT__".data

def PARENT_COMMUNICATED : List Char := "__PARENT_COMMUNICATED__".data

def postMessageEventNames : List (List Char) :=
  [LOADED, CUSTOM, HANDSHAKE, ON_BEFORE_UNLOAD, PARENT_DISCONNECTED,
   HANDSHAKE_WITH_PARENT, PARENT_COMMUNICATED]

def OPEN : List Char := "open".data

def CLOSE : List Char := "close".data

/-- Error taxonomy (the WarningTextEnum messages carried by thrown Error objects). -/
inductive JsError where
  | configRequired
  | urlRequired
  | invalidJSON
  | invalidData
deriving DecidableEq

/-!
Envelope codec.

The source encodes by prepending the event tag to the serialized payload
(Child.sendMessageToParent, PostMessageListener._onLoad) and decodes by
data.split(tag)[1] followed by the injected parse function
(Child.onCommunication, PostMessageListener._onCustomMessage).  The parse
and stringify functions are injectable configuration, so the codec is
parametrized by them; parse returning none models a thrown parse error.
-/

def encodeEnvelope {A : Type} (stringify : A → List Char) (tag : List Char)
    (p : A) : List Char :=
  tag ++ stringify p

def decodeEnvelope {A : Type} (parse : List Char → Option A) (tag raw : List Char) :
    Option A :=
  match jsSplitSecond tag raw with
  | none => none
  | some body => parse body

/-!
JS number coercion, as used by arrayUtils.searchByKeyName.

The search loop matches either numerically, when isNaN(value) is false
(comparing parseInt(obj[key], 10) === parseInt(value, 10)), or by exact
string equality otherwise.  isNaN coerces its string argument with the
Number() conversion; jsStrNumberIsNaN decides whether that conversion
yields NaN.  jsParseInt models parseInt(s, 10): it skips leading white
space, accepts an optional sign and the longest leading run of decimal
digits, and yields none (NaN) when there is no digit.  Integer values are
modelled exactly; the rounding of IEEE doubles above 2^53 is not.
-/

def jsWhitespace (c : Char) : Bool :=
  c == ' ' || c == '\t' || c == '\n' || c == '\r' ||
  c == Char.ofNat 0x0b || c == Char.ofNat 0x0c ||
  c == Char.ofNat 0xa0 || c == Char.ofNat 0xfeff ||
  c == Char.ofNat 0x2028 || c == Char.ofNat 0x2029

def trimLeading (s : List Char) : List Char :=
  s.dropWhile jsWhitespace

def trimWS (s : List Char) : List Char :=
  ((trimLeading s).reverse.dropWhile jsWhitespace).reverse

def allDigits1 (l : List Char) : Bool :=
  !l.isEmpty && l.all (fun c => c.isDigit)

def isHexDigitChar (c : Char) : Bool :=
  c.isDigit || (c ≥ 'a' && c ≤ 'f') || (c ≥ 'A' && c ≤ 'F')

/-- Mantissa of a decimal number literal: digits, digits.digits, .digits or digits. -/
def decMantissaOk (m : List Char) : Bool :=
  let a := m.takeWhile (fun c => c != '.')
  match m.dropWhile (fun c => c != '.') with
  | [] => allDigits1 m
  | _ :: b =>
    a.all (fun c => c.isDigit) && b.all (fun c => c.isDigit) &&
    (!a.isEmpty || !b.isEmpty)

def expPartOk (e : List Char) : Bool :=
  match e with
  | '+' :: r => allDigits1 r
  | '-' :: r => allDigits1 r
  | r => allDigits1 r

def decUnsignedOk (u : List Char) : Bool :=
  u == "Infinity".data ||
  (let a := u.takeWhile (fun c => c != 'e' && c != 'E')
   match u.dropWhile (fun c => c != 'e' && c != 'E') with
   | [] => decMantissaOk u
   | _ :: b => decMantissaOk a && expPartOk b)

def decLiteralOk (t : List Char) : Bool :=
  match t with
  | '+' :: r => decUnsignedOk r
  | '-' :: r => decUnsignedOk r
  | r => decUnsignedOk r

def radixLiteralOk (t : List Char) : Bool :=
  match t with
  | '0' :: x :: ds =>
    (!ds.isEmpty) &&
    ((x == 'x' || x == 'X') && ds.all isHexDigitChar ||
     (x == 'o' || x == 'O') && ds.all (fun c => c ≥ '0' && c ≤ '7') ||
     (x == 'b' || x == 'B') && ds.all (fun c => c == '0' || c == '1'))
  | _ => false

/-- Decides whether isNaN(s) holds for a string s, i.e. whether the JS
Number() conversion of s yields NaN.  The empty or all-blank string
converts to 0, hence is not NaN. -/
def jsStrNumberIsNaN (s : List Char) : Bool :=
  let t := trimWS s
  !t.isEmpty && !(decLiteralOk t || radixLiteralOk t)

def digitsToNat (ds : List Char) : Nat :=
  ds.foldl (fun acc c => acc * 10 + (c.toNat - '0'.toNat)) 0

def digitsValue (r : List Char) : Option Int :=
  let ds := r.takeWhile (fun c => c.isDigit)
  if ds.isEmpty then none else some (Int.ofNat (digitsToNat ds))

/-- Models parseInt(s, 10); none is NaN. -/
def jsParseInt (s : List Char) : Option Int :=
  match trimLeading s with
  | '-' :: r => (digitsValue r).map (fun n => -n)
  | '+' :: r => digitsValue r
  | r => digitsValue r

/-- One iteration of the matching test inside arrayUtils.searchByKeyName:
does the stored key objVal match the probe value?  NaN === NaN is false,
so the numeric branch only matches when both parseInt results are numbers. -/
def jsKeyMatch (value objVal : List Char) : Bool :=
  if !jsStrNumberIsNaN value then
    match jsParseInt objVal, jsParseInt value with
    | some a, some b => a == b
    | _, _ => false
  else objVal == value

/-!
Tab registry (tabUtils).

A TabRec models one element of tabUtils.tabs.  The window handle is an
option: none models window.open having returned null (a falsy tab.ref);
some closed carries the closed flag of the live window.  The name and url
fields of the source records are not consulted by any claim and are
omitted from the projection.
-/

structure TabRec where
  id : List Char
  status : List Char
  ref : Option Bool
deriving DecidableEq

/-- First index (if any) at which the record id matches the probe value,
per the loop of arrayUtils.searchByKeyName over key id. -/
def searchIdxAux (value : List Char) : List TabRec → Nat → Option Nat
  | [], _ => none
  | t :: ts, i => if jsKeyMatch value t.id then some i else searchIdxAux value ts (i + 1)

def searchIdx (tabs : List TabRec) (value : List Char) : Option Nat :=
  searchIdxAux value tabs 0

/-- Integer result of searchByKeyName(tabs, id, value, index): the found
index, or -1.  (In the not-found case the source also assigns data[-1] = an
empty object, which creates a non-index property on a JS array and leaves
the array elements unchanged.) -/
def searchByKeyNameIdx (tabs : List TabRec) (value : List Char) : Int :=
  match searchIdx tabs value with
  | some i => Int.ofNat i
  | none => -1

/-- Models Array.prototype.splice(start, 1) on the registry: a negative
start counts from the end (clamped at 0), a start at or past the length
removes nothing. -/
def jsSpliceOne (tabs : List TabRec) (start : Int) : List TabRec :=
  let len : Int := Int.ofNat tabs.length
  let actual : Nat := if start < 0 then (max (len + start) 0).toNat else (min start len).toNat
  tabs.eraseIdx actual

/-- tabUtils._remove: locate the first record whose id matches and splice
one element at the found index (-1 when absent). -/
def tabUtils_remove (tabs : List TabRec) (id : List Char) : List TabRec :=
  jsSpliceOne tabs (searchByKeyNameIdx tabs id)

/-- tabUtils.addNew: push one record. -/
def tabUtils_addNew (tabs : List TabRec) (t : TabRec) : List TabRec :=
  tabs ++ [t]

/-- tabUtils.getOpened. -/
def tabUtils_getOpened (tabs : List TabRec) : List TabRec :=
  tabs.filter (fun t => t.status == OPEN)

/-- tabUtils.getClosed. -/
def tabUtils_getClosed (tabs : List TabRec) : List TabRec :=
  tabs.filter (fun t => t.status == CLOSE)

/-- tabUtils.getAll. -/
def tabUtils_getAll (tabs : List TabRec) : List TabRec :=
  tabs

/-- tabUtils.closeTab: find the record (object preference; the not-found
sentinel is an empty object whose ref is undefined, so the guard
tab && tab.ref skips it), call ref.close() - which marks the window handle
closed - and set status CLOSE. -/
def tabUtils_closeTab (tabs : List TabRec) (id : List Char) : List TabRec :=
  match searchIdx tabs id with
  | none => tabs
  | some j =>
    match tabs[j]? with
    | none => tabs
    | some t =>
      match t.ref with
      | none => tabs
      | some _ => tabs.set j { t with ref := some true, status := CLOSE }

/-- tabUtils.closeAll: close every record that has a window handle. -/
def tabUtils_closeAll (tabs : List TabRec) : List TabRec :=
  tabs.map (fun t =>
    match t.ref with
    | none => t
    | some _ => { t with ref := some true, status := CLOSE })

/-!
Parent polling loop (Parent.addInterval / Parent.watchStatus).

The source iterates index-wise over the live tabUtils.tabs array while
watchStatus may splice elements out of it, so the loop is modelled on the
evolving list with an explicit index.  Each iteration runs watchStatus on
tabs[i] when removeClosedTabs is set, then refreshes tabs[i].status from
the window-closed flag (guarded by tabs[i] && tabs[i].ref).  The fuel
argument bounds the iteration count; addInterval supplies the initial
length, which suffices because the index grows by one per iteration and
the length never grows.
-/

def watchStatusAt (i : Nat) (tabs : List TabRec) : List TabRec :=
  match tabs[i]? with
  | none => tabs
  | some t =>
    match t.ref with
    | none => tabs
    | some closed =>
      let newStatus := if closed then CLOSE else OPEN
      if newStatus == t.status then tabs
      else if t.status == OPEN && newStatus == CLOSE then tabUtils_remove tabs t.id
      else tabs

def updateStatusAt (i : Nat) (tabs : List TabRec) : List TabRec :=
  match tabs[i]? with
  | none => tabs
  | some t =>
    match t.ref with
    | none => tabs
    | some closed => tabs.set i { t with status := if closed then CLOSE else OPEN }

def addIntervalLoop (rct : Bool) : Nat → Nat → List TabRec → List TabRec
  | 0, _, tabs => tabs
  | fuel + 1, i, tabs =>
    if i < tabs.length then
      addIntervalLoop rct fuel (i + 1)
        (updateStatusAt i (if rct then watchStatusAt i tabs else tabs))
    else tabs

/-- Registry effect of one Parent.addInterval tick: when no tab is open the
interval clears itself and nothing else happens; otherwise the loop body
runs over every index. -/
def addIntervalTick (rct : Bool) (tabs : List TabRec) : List TabRec :=
  if (tabUtils_getOpened tabs).isEmpty then tabs
  else addIntervalLoop rct tabs.length 0 tabs

/-- Environment event: the window behind record i gets closed (a user
closes the child tab); the closed flag of a window handle only ever turns
true, never back to false. -/
def envCloseAt (i : Nat) (tabs : List TabRec) : List TabRec :=
  match tabs[i]? with
  | none => tabs
  | some t =>
    match t.ref with
    | none => tabs
    | some _ => tabs.set i { t with ref := some true }

/-- Operations of the claim about terminal CLOSE status: explicit close
calls, polling ticks, standalone watchStatus runs, and environment
window-closure. -/
inductive POp where
  | closeTab (id : List Char)
  | closeAllTabs
  | pollTick (rct : Bool)
  | watchStatusOp (i : Nat)
  | envClose (i : Nat)

def pStep (tabs : List TabRec) (op : POp) : List TabRec :=
  match op with
  | POp.closeTab id => tabUtils_closeTab tabs id
  | POp.closeAllTabs => tabUtils_closeAll tabs
  | POp.pollTick rct => addIntervalTick rct tabs
  | POp.watchStatusOp i => watchStatusAt i tabs
  | POp.envClose i => envCloseAt i tabs

def applyPOps (ops : List POp) (tabs : List TabRec) : List TabRec :=
  ops.foldl pStep tabs

/-!
UUID generation (UUID.generate with the source hex aligner):
hex(rand(32), 8) - hex(rand(16), 4) - hex(0x4000 | rand(12), 4) -
hex(0x8000 | rand(14), 4) - hex(rand(48), 12).  The zero-padding loop of
_getIntAligner prepends exactly (length - str.length) zero characters when
the rendered number is shorter than the requested length.
-/

def hexAligned (n : Nat) (len : Nat) : List Char :=
  let s := Nat.toDigits 16 n
  List.replicate (len - s.length) '0' ++ s

def uuidGenerate (r1 r2 r3 r4 r5 : Nat) : List Char :=
  hexAligned r1 8 ++ ['-'] ++ hexAligned r2 4 ++ ['-'] ++
  hexAligned (0x4000 ||| r3) 4 ++ ['-'] ++ hexAligned (0x8000 ||| r4) 4 ++
  ['-'] ++ hexAligned r5 12

/-!
Parent coordinator state and openNewTab.

heartBeat models whether the polling interval handle is set.  Tab.create
assigns id := UUID.generate() || tabs.length + 1, status open, and the
window handle returned by window.open (none when the popup was blocked),
then pushes the record through tabUtils.addNew.  openNewTab validates its
options first and throws before touching any state.
-/

structure OpenConfig where
  url : Option (List Char)
deriving DecidableEq

structure ParentState where
  tabs : List TabRec
  heartBeat : Bool
deriving DecidableEq

def natToChars (n : Nat) : List Char :=
  Nat.toDigits 10 n

/-- Record built by Tab.create for one openNewTab call; r1-r5 are the
random draws feeding UUID.generate and openRef the window.open result. -/
def newTabRec (tabs : List TabRec) (r1 r2 r3 r4 r5 : Nat) (openRef : Option Bool) :
    TabRec :=
  let g := uuidGenerate r1 r2 r3 r4 r5
  { id := if !g.isEmpty then g else natToChars (tabs.length + 1)
    status := OPEN
    ref := openRef }

def jsUrlFalsy (u : Option (List Char)) : Bool :=
  match u with
  | none => true
  | some s => s.isEmpty

/-- Parent.openNewTab.  The returned pair carries the post state and
either the created record or the thrown error; on a throw the input state
is returned unchanged. -/
def openNewTab (st : ParentState) (cfgOpt : Option OpenConfig)
    (r1 r2 r3 r4 r5 : Nat) (openRef : Option Bool) :
    ParentState × Except JsError TabRec :=
  match cfgOpt with
  | none => (st, Except.error JsError.configRequired)
  | some cfg =>
    if jsUrlFalsy cfg.url then (st, Except.error JsError.urlRequired)
    else
      let rec1 := newTabRec st.tabs r1 r2 r3 r4 r5 openRef
      let st1 : ParentState := { st with tabs := tabUtils_addNew st.tabs rec1 }
      let st2 : ParentState := if st1.heartBeat then st1 else { st1 with heartBeat := true }
      (st2, Except.ok rec1)

/-!
Module-level state shared by every Parent instance: the constructor
executes tabUtils.tabs = [] unconditionally (the heartBeat handle lives in
a module variable the constructor does not reset).
-/

structure ModuleState where
  tabs : List TabRec
  heartBeat : Bool
deriving DecidableEq

def parentConstructorReset (m : ModuleState) : ModuleState :=
  { m with tabs := [] }

/-- Parent.getAllTabs on the module state. -/
def parentGetAllTabs (m : ModuleState) : List TabRec :=
  tabUtils_getAll m.tabs

/-!
Registry operation alphabet for the partition claim: addNew of a record
produced by Tab.create (status open) and _remove by id.
-/

inductive RegOp where
  | add (id : List Char) (ref : Option Bool)
  | remove (id : List Char)

def regStep (tabs : List TabRec) (op : RegOp) : List TabRec :=
  match op with
  | RegOp.add id ref => tabUtils_addNew tabs { id := id, status := OPEN, ref := ref }
  | RegOp.remove id => tabUtils_remove tabs id

def applyRegOps (ops : List RegOp) (tabs : List TabRec) : List TabRec :=
  ops.foldl regStep tabs

/-!
Broadcast pre-processing (tabUtils._preProcessMessage), specialised to a
string message - the relevant case for re-wrapping an already framed
envelope.  The default serializer JSON.stringify renders a string as a
quoted, escaped string literal; the tag characters themselves need no
escaping, so an embedded tag survives serialization verbatim.
-/

def hexDigitChar (n : Nat) : Char :=
  if n < 10 then Char.ofNat ('0'.toNat + n) else Char.ofNat ('a'.toNat + (n - 10))

def jsonEscapeChar (c : Char) : List Char :=
  if c == '"' then ['\\', '"']
  else if c == '\\' then ['\\', '\\']
  else if c == Char.ofNat 0x08 then ['\\', 'b']
  else if c == Char.ofNat 0x0c then ['\\', 'f']
  else if c == '\n' then ['\\', 'n']
  else if c == '\r' then ['\\', 'r']
  else if c == '\t' then ['\\', 't']
  else if c.toNat < 0x20 then
    ['\\', 'u', '0', '0', hexDigitChar (c.toNat / 16), hexDigitChar (c.toNat % 16)]
  else [c]

def jsonStringifyString (s : List Char) : List Char :=
  '"' :: (s.flatMap jsonEscapeChar ++ ['"'])

/-- tabUtils._preProcessMessage on a string message: stringify it, then
prepend the PARENT_COMMUNICATED tag unless the stringified text already
contains it. -/
def preProcessMessageStr (s : List Char) : List Char :=
  let m := jsonStringifyString s
  if !m.isEmpty && (jsFindSplit PARENT_COMMUNICATED m).isNone then
    PARENT_COMMUNICATED ++ m
  else m

/-!
Child coordinator.

JVal is a small model of the JS values flowing through the child: the
injected parse function yields one, property access on a non-object gives
undefined, and the expression a && a.prop keeps the falsy a.  Function
identity matters for addEventListener/removeEventListener, so listener
functions are modelled by numeric ids drawn from a fresh-id counter: every
evaluation of the arrow expression evt => this.onCommunication(evt)
allocates a new id.
-/

inductive JVal where
  | jnull
  | jundef
  | jbool (b : Bool)
  | jstr (s : List Char)
  | jnum (n : Int)
  | jobj (fields : List (List Char × JVal))

def jtruthy (v : JVal) : Bool :=
  match v with
  | JVal.jnull => false
  | JVal.jundef => false
  | JVal.jbool b => b
  | JVal.jstr s => !s.isEmpty
  | JVal.jnum n => n != 0
  | JVal.jobj _ => true

def jlookup (k : List Char) : List (List Char × JVal) → JVal
  | [] => JVal.jundef
  | (k2, v) :: fs => if k2 == k then v else jlookup k fs

/-- Property access v.k: undefined on anything but an object carrying k. -/
def jget (v : JVal) (k : List Char) : JVal :=
  match v with
  | JVal.jobj fs => jlookup k fs
  | _ => JVal.jundef

/-- The JS expression a && b. -/
def jand (a b : JVal) : JVal :=
  if jtruthy a then b else a

def idKey : List Char := "id".data

def nameKey : List Char := "name".data

def parentNameKey : List Char := "parentName".data

def isfKey : List Char := "isSiteInsideFrame".data

def sessionStorageKey : List Char := "__vwo_new_tab_info__".data

/-- Callbacks the child configuration may define. -/
inductive CbName where
  | parentDisconnectCb
  | initCb
  | parentCommCb
deriving DecidableEq

structure ChildConfig where
  parse : List Char → Option JVal
  stringify : JVal → List Char
  origin : Option (List Char)
  isSiteInsideFrame : JVal
  hasParentDisconnectCb : Bool
  hasInitCb : Bool
  hasParentCommCb : Bool

structure ChildState where
  cfg : ChildConfig
  tabId : JVal
  tabName : JVal
  tabParentName : JVal
  storageSupported : Bool
  store : List (List Char × List Char)
  timeoutActive : Bool
  msgListeners : List Nat
  nextFnId : Nat
  hasOpener : Bool

/-- Outcome of one inbound message: post state, messages posted to the
opener, callbacks invoked in order, and the error thrown (if any). -/
structure ChildOut where
  st : ChildState
  posted : List (List Char)
  calls : List CbName
  threw : Option JsError

def storeSet (store : List (List Char × List Char)) (k v : List Char) :
    List (List Char × List Char) :=
  match store with
  | [] => [(k, v)]
  | (k2, v2) :: rest => if k2 == k then (k, v) :: rest else (k2, v2) :: storeSet rest k v

/-- Child._setData: a no-op without sessionStorage support. -/
def childSetData (st : ChildState) (d : List Char) : ChildState :=
  if st.storageSupported then { st with store := storeSet st.store sessionStorageKey d }
  else st

/-- Child.sendMessageToParent: prepend the tag to the stringified payload
and post to window.top.opener when it exists; silently do nothing
otherwise. -/
def childSendToParent (st : ChildState) (v : JVal) (ptag : List Char) :
    List (List Char) :=
  if st.hasOpener then [ptag ++ st.cfg.stringify v] else []

def jsOriginReject (cfgOrigin : Option (List Char)) (msgOrigin : List Char) : Bool :=
  match cfgOrigin with
  | none => false
  | some o => !o.isEmpty && o != msgOrigin

/-- Acceptance guard at the top of Child.onCommunication: the payload must
be a truthy string and the origin must pass the configured check. -/
def childAccept (cfg : ChildConfig) (mdata : JVal) (morigin : List Char) :
    Option (List Char) :=
  match mdata with
  | JVal.jstr s =>
    if s.isEmpty then none
    else if jsOriginReject cfg.origin morigin then none
    else some s
  | _ => none

/-- PARENT_DISCONNECTED branch: invoke the disconnect callback when
defined, then call removeEventListener with a freshly created arrow
function (a new function id), which removes that fresh id from the
listener list - not the id registered by addListeners. -/
def childRunPD (st : ChildState) (s : List Char) : ChildState × List CbName :=
  if (jsFindSplit PARENT_DISCONNECTED s).isSome then
    let calls := if st.cfg.hasParentDisconnectCb then [CbName.parentDisconnectCb] else []
    let f := st.nextFnId
    ({ st with nextFnId := f + 1, msgListeners := st.msgListeners.erase f }, calls)
  else (st, [])

/-- HANDSHAKE_WITH_PARENT branch: persist the raw identity string, parse
it (throwing invalidData on failure), adopt the identity, reply with a
HANDSHAKE envelope containing id and isSiteInsideFrame, and invoke the
initialization callback when defined. -/
def childRunACK (st : ChildState) (s : List Char) :
    ChildState × List (List Char) × List CbName × Option JsError :=
  if (jsFindSplit HANDSHAKE_WITH_PARENT s).isSome then
    let body := (jsSplitSecond HANDSHAKE_WITH_PARENT s).getD []
    let st1 := childSetData st body
    match st1.cfg.parse body with
    | none => (st1, [], [], some JsError.invalidData)
    | some v =>
      let st2 := { st1 with
        tabId := jand v (jget v idKey)
        tabName := jand v (jget v nameKey)
        tabParentName := jand v (jget v parentNameKey) }
      let posted := childSendToParent st2
        (JVal.jobj [(idKey, st2.tabId), (isfKey, st2.cfg.isSiteInsideFrame)]) HANDSHAKE
      let calls := if st2.cfg.hasInitCb then [CbName.initCb] else []
      (st2, posted, calls, none)
  else (st, [], [], none)

/-- PARENT_COMMUNICATED branch: decode the inner payload (throwing
invalidJSON on parse failure) and invoke the parent-communication
callback when defined.  The child state is not modified. -/
def childRunPC (st : ChildState) (s : List Char) : List CbName × Option JsError :=
  if (jsFindSplit PARENT_COMMUNICATED s).isSome then
    let body := (jsSplitSecond PARENT_COMMUNICATED s).getD []
    match st.cfg.parse body with
    | none => ([], some JsError.invalidJSON)
    | some _ => (if st.cfg.hasParentCommCb then [CbName.parentCommCb] else [], none)
  else ([], none)

/-- Child.onCommunication: guard, unconditional clearTimeout, then the
three tag branches in source order; a thrown error aborts the remaining
branches but keeps the mutations already performed. -/
def onCommunication (st : ChildState) (mdata : JVal) (morigin : List Char) : ChildOut :=
  match childAccept st.cfg mdata morigin with
  | none => { st := st, posted := [], calls := [], threw := none }
  | some s =>
    let st0 := { st with timeoutActive := false }
    let r1 := childRunPD st0 s
    let r2 := childRunACK r1.1 s
    match r2.2.2.2 with
    | some e => { st := r2.1, posted := r2.2.1, calls := r1.2 ++ r2.2.2.1, threw := some e }
    | none =>
      let r3 := childRunPC r2.1 s
      { st := r2.1, posted := r2.2.1, calls := r1.2 ++ r2.2.2.1 ++ r3.1, threw := r3.2 }

/-- Child.addListeners: removeEventListener with one fresh arrow function
(removing nothing), then addEventListener with another fresh arrow
function, which becomes the registered message listener. -/
def childAddListeners (st : ChildState) : ChildState :=
  let f1 := st.nextFnId
  let st1 := { st with nextFnId := f1 + 1, msgListeners := st.msgListeners.erase f1 }
  let f2 := st1.nextFnId
  { st1 with nextFnId := f2 + 1, msgListeners := st1.msgListeners ++ [f2] }

/-- Dispatch of a window message event to the child: onCommunication runs
once per registered message listener; with no listener registered the
event is not processed at all. -/
def handleMessageEvent (st : ChildState) (mdata : JVal) (morigin : List Char) :
    ChildOut :=
  if st.msgListeners.isEmpty then { st := st, posted := [], calls := [], threw := none }
  else onCommunication st mdata morigin

/-! Concrete instances used by the witness theorems. -/

def demoTid2 : List Char := "a".data

def demoInit2 : List TabRec :=
  [{ id := "a".data, status := CLOSE, ref := some true },
   { id := "b".data, status := OPEN, ref := some false }]

def demoOps2 : List POp :=
  [POp.envClose 1, POp.pollTick true, POp.closeTab "b".data,
   POp.watchStatusOp 0, POp.closeAllTabs, POp.pollTick false]

def demoTabs3 : List TabRec :=
  [{ id := "a".data, status := OPEN, ref := some false },
   { id := "b".data, status := OPEN, ref := some false }]

def demoObj4 : JVal :=
  JVal.jobj
    [(idKey, JVal.jstr "abc".data), (nameKey, JVal.jstr "n".data),
     (parentNameKey, JVal.jstr "p".data)]

def demoCfg4 : ChildConfig :=
  { parse := fun _ => some demoObj4
    stringify := fun _ => "S".data
    origin := none
    isSiteInsideFrame := JVal.jundef
    hasParentDisconnectCb := true
    hasInitCb := true
    hasParentCommCb := true }

def demoSt4 : ChildState :=
  { cfg := demoCfg4, tabId := JVal.jnull, tabName := JVal.jnull,
    tabParentName := JVal.jnull, storageSupported := true, store := [],
    timeoutActive := true, msgListeners := [1], nextFnId := 2, hasOpener := true }

def demoBody4 : List Char := "B".data

def demoInit5 : List TabRec :=
  [{ id := "x".data, status := CLOSE, ref := some true }]

def demoOps5 : List RegOp :=
  [RegOp.add "y".data (some false), RegOp.remove "zz".data,
   RegOp.add "w".data none, RegOp.remove "w".data]

def demoPSt6 : ParentState :=
  { tabs := [{ id := "x".data, status := OPEN, ref := some false }], heartBeat := false }

def demoCfg8 : ChildConfig :=
  { parse := fun _ => none
    stringify := fun _ => []
    origin := some "https://p".data
    isSiteInsideFrame := JVal.jundef
    hasParentDisconnectCb := false
    hasInitCb := false
    hasParentCommCb := false }

def demoSt8 : ChildState :=
  { cfg := demoCfg8, tabId := JVal.jnull, tabName := JVal.jnull,
    tabParentName := JVal.jnull, storageSupported := false, store := [],
    timeoutActive := true, msgListeners := [1], nextFnId := 2, hasOpener := false }

def demoCfg9 : ChildConfig :=
  { parse := fun s => some (JVal.jstr s)
    stringify := fun _ => []
    origin := none
    isSiteInsideFrame := JVal.jundef
    hasParentDisconnectCb := true
    hasInitCb := false
    hasParentCommCb := true }

/-- Child state just before addListeners runs during init. -/
def demoSt9 : ChildState :=
  { cfg := demoCfg9, tabId := JVal.jnull, tabName := JVal.jnull,
    tabParentName := JVal.jnull, storageSupported := false, store := [],
    timeoutActive := true, msgListeners := [], nextFnId := 0, hasOpener := true }

def demoSt9b : ChildState := childAddListeners demoSt9

def demoOut9 : ChildOut :=
  handleMessageEvent demoSt9b (JVal.jstr PARENT_DISCONNECTED) "o".data

def demoOut9b : ChildOut :=
  handleMessageEvent demoOut9.st (JVal.jstr (PARENT_COMMUNICATED ++ "x".data)) "o".data

def demoOpenCfg6 : OpenConfig := { url := some "https://x".data }

/-- Every record status lies in the two-element status enum. -/
abbrev statusValid (tabs : List TabRec) : Prop :=
  ∀ r ∈ tabs, r.status = OPEN ∨ r.status = CLOSE

/-- The partition property of the registry views: every record of getAll
lies in exactly one of getOpened and getClosed, the two views together
are a permutation of getAll, and every status is OPEN or CLOSE. -/
abbrev partitionOk (tabs : List TabRec) : Prop :=
  (∀ r ∈ tabUtils_getAll tabs,
     (r ∈ tabUtils_getOpened tabs ∧ r ∉ tabUtils_getClosed tabs) ∨
     (r ∈ tabUtils_getClosed tabs ∧ r ∉ tabUtils_getOpened tabs)) ∧
  (tabUtils_getOpened tabs ++ tabUtils_getClosed tabs).Perm (tabUtils_getAll tabs) ∧
  statusValid tabs

/-- The reachable-state invariant behind terminal CLOSE: a record whose
status is CLOSE never sits on a window handle that is still open.  Records
are created OPEN; every assignment of CLOSE happens together with (or
after) the handle reporting closed, and a closed handle never reopens. -/
abbrev closedRefInv (tabs : List TabRec) : Prop :=
  ∀ r ∈ tabs, r.status = CLOSE → r.ref ≠ some false

/-- All records carrying the given id are in status CLOSE. -/
abbrev closedForId (tid : List Char) (tabs : List TabRec) : Prop :=
  ∀ r ∈ tabs, r.id = tid → r.status = CLOSE

/-! Helper lemmas about the string-splitting primitives. -/

theorem startsWithSeq_append_self (l t : List Char) :
    startsWithSeq l (l ++ t) = true := by
  induction l with
  | nil => rfl
  | cons c cs ih => simp [startsWithSeq, ih]

theorem jsFindSplit_append_self (sep body : List Char) (h : sep ≠ []) :
    jsFindSplit sep (sep ++ body) = some ([], body) := by
  match sep, h with
  | c :: cs, _ =>
    show jsFindSplit (c :: cs) (c :: (cs ++ body)) = some ([], body)
    have hs : startsWithSeq (c :: cs) ((c :: cs) ++ body) = true :=
      startsWithSeq_append_self (c :: cs) body
    rw [List.cons_append] at hs
    have hd : ((c :: cs) ++ body).drop (c :: cs).length = body :=
      List.drop_left (c :: cs) body
    rw [List.cons_append] at hd
    simp only [jsFindSplit, hs, if_true, hd]

theorem jsFindSplit_isSome_append (sep : List Char) (h : sep ≠ []) :
    ∀ a b : List Char, (jsFindSplit sep (a ++ sep ++ b)).isSome = true := by
  intro a
  induction a with
  | nil =>
    intro b
    rw [List.nil_append, jsFindSplit_append_self sep b h]
    rfl
  | cons c a2 ih =>
    intro b
    rw [List.cons_append]
    simp only [jsFindSplit]
    split
    case isTrue _ => rfl
    case isFalse _ =>
      have := ih b
      match hm : jsFindSplit sep (a2 ++ sep ++ b) with
      | none => rw [hm] at this; exact absurd this (by decide)
      | some (pre, post) => rfl

theorem eventTags_ne_nil : ∀ t ∈ postMessageEventNames, t ≠ ([] : List Char) := by
  decide

/-- Claim C1: for every event tag in the fixed tag set and every payload
the injected serializer supports (its serialization round-trips through
parse and contains no occurrence of the tag, the framing invariant of the
envelope format), decoding the encoded envelope by splitting on the first
occurrence of the tag and parsing the remainder yields the payload back. -/
theorem c1_envelope_roundtrip {A : Type} (stringify : A → List Char)
    (parse : List Char → Option A) (tag : List Char) (p : A)
    (htag : tag ∈ postMessageEventNames)
    (hround : parse (stringify p) = some p)
    (hframe : jsFindSplit tag (stringify p) = none) :
    decodeEnvelope parse tag (encodeEnvelope stringify tag p) = some p := by
  have hne : tag ≠ [] := eventTags_ne_nil tag htag
  unfold decodeEnvelope encodeEnvelope jsSplitSecond
  rw [jsFindSplit_append_self tag (stringify p) hne]
  dsimp only
  rw [hframe]
  exact hround

/-- Witness for C1 at the LOADED tag with a concrete one-point serializer. -/
theorem c1_envelope_roundtrip_witness :
    decodeEnvelope (fun _ => some 0) LOADED
      (encodeEnvelope (fun _ : Nat => ['N']) LOADED 0) = some 0 :=
  c1_envelope_roundtrip (fun _ : Nat => ['N']) (fun _ => some 0) LOADED 0
    (by decide) rfl (by decide)

/-- The tag characters pass through JSON string escaping verbatim. -/
theorem escape_tag_verbatim :
    PARENT_COMMUNICATED.flatMap jsonEscapeChar = PARENT_COMMUNICATED := by
  decide

theorem jsonStringify_of_framed (a b : List Char) :
    jsonStringifyString (a ++ PARENT_COMMUNICATED ++ b) =
      ('"' :: a.flatMap jsonEscapeChar) ++ PARENT_COMMUNICATED ++
        (b.flatMap jsonEscapeChar ++ ['"']) := by
  unfold jsonStringifyString
  rw [List.flatMap_append, List.flatMap_append, escape_tag_verbatim]
  simp [List.append_assoc]

/-- Claim C7: applying the broadcast pre-processing step to a message that
already carries the PARENT_COMMUNICATED framing does not prepend the tag
again: the output is just the serialized message, and in particular it
never starts with two copies of the tag. -/
theorem c7_idempotent_framing (s : List Char)
    (hframed : ∃ a b, s = a ++ PARENT_COMMUNICATED ++ b) :
    preProcessMessageStr s = jsonStringifyString s ∧
    startsWithSeq (PARENT_COMMUNICATED ++ PARENT_COMMUNICATED)
      (preProcessMessageStr s) = false := by
  obtain ⟨a, b, rfl⟩ := hframed
  have hocc : (jsFindSplit PARENT_COMMUNICATED
      (jsonStringifyString (a ++ PARENT_COMMUNICATED ++ b))).isSome = true := by
    rw [jsonStringify_of_framed]
    exact jsFindSplit_isSome_append PARENT_COMMUNICATED (by decide) _ _
  have heq : preProcessMessageStr (a ++ PARENT_COMMUNICATED ++ b) =
      jsonStringifyString (a ++ PARENT_COMMUNICATED ++ b) := by
    have hnone : (jsFindSplit PARENT_COMMUNICATED
        (jsonStringifyString (a ++ PARENT_COMMUNICATED ++ b))).isNone = false := by
      rw [Option.isNone_eq_false_iff, Option.isSome_iff_exists] at *
      exact hocc
    simp only [preProcessMessageStr]
    rw [hnone]
    simp
  refine ⟨heq, ?_⟩
  rw [heq]
  have hsplit : PARENT_COMMUNICATED = '_' :: "_PARENT_COMMUNICATED__".data := by decide
  conv_lhs => rw [hsplit, List.cons_append]
  unfold jsonStringifyString
  simp [startsWithSeq]

/-- Witness for C7: re-processing the bare tag itself. -/
theorem c7_idempotent_framing_witness :
    preProcessMessageStr PARENT_COMMUNICATED =
      jsonStringifyString PARENT_COMMUNICATED ∧
    startsWithSeq (PARENT_COMMUNICATED ++ PARENT_COMMUNICATED)
      (preProcessMessageStr PARENT_COMMUNICATED) = false :=
  c7_idempotent_framing PARENT_COMMUNICATED ⟨[], [], by simp⟩

theorem searchIdxAux_lt (v : List Char) :
    ∀ (tabs : List TabRec) (k i : Nat), searchIdxAux v tabs k = some i →
      i < k + tabs.length := by
  intro tabs
  induction tabs with
  | nil =>
    intro k i h
    exact absurd h (by simp [searchIdxAux])
  | cons t ts ih =>
    intro k i h
    unfold searchIdxAux at h
    split at h
    · injection h with h2
      subst h2
      simp only [List.length_cons]
      omega
    · have := ih (k + 1) i h
      simp only [List.length_cons]
      omega

theorem searchIdx_lt (tabs : List TabRec) (id : List Char) (j : Nat)
    (h : searchIdx tabs id = some j) : j < tabs.length := by
  have := searchIdxAux_lt id tabs 0 j h
  omega

/-- Counterexample to claim C3: removing an id that no record carries is
not a no-op on a non-empty registry - the splice at index -1 deletes the
last record. -/
theorem c3_remove_absent_counterexample :
    tabUtils_remove demoTabs3 "zz".data ≠ demoTabs3 := by
  decide

/-- Claim C3 (amended): remove(id) deletes the record at the first index
whose id matches under the searchByKeyName comparison; when no record
matches, it deletes the last record of the registry (so it is a no-op
only on an empty registry). -/
theorem c3_remove_behavior (tabs : List TabRec) (id : List Char) :
    (∀ j, searchIdx tabs id = some j → tabUtils_remove tabs id = tabs.eraseIdx j) ∧
    (searchIdx tabs id = none → tabUtils_remove tabs id = tabs.dropLast) := by
  constructor
  · intro j hj
    have hlt := searchIdx_lt tabs id j hj
    unfold tabUtils_remove searchByKeyNameIdx
    rw [hj]
    unfold jsSpliceOne
    have hact : (if (Int.ofNat j : Int) < 0 then
        (max ((Int.ofNat tabs.length : Int) + Int.ofNat j) 0).toNat
        else (min (Int.ofNat j) (Int.ofNat tabs.length)).toNat) = j := by
      rw [if_neg (by simp only [Int.ofNat_eq_coe]; omega), Int.min_def]
      split <;> simp only [Int.ofNat_eq_coe] at * <;> omega
    simp only [hact]
  · intro hnone
    unfold tabUtils_remove searchByKeyNameIdx
    rw [hnone]
    unfold jsSpliceOne
    match tabs with
    | [] => rfl
    | t :: ts =>
      have hact : (if (-1 : Int) < 0 then
          (max ((Int.ofNat (t :: ts).length : Int) + -1) 0).toNat
          else (min (-1) (Int.ofNat (t :: ts).length)).toNat) =
          (t :: ts).length - 1 := by
        simp only [List.length_cons]
        rw [if_pos (by omega), Int.max_def]
        split <;> simp only [Int.ofNat_eq_coe] at * <;> omega
      simp only [hact]
      exact (List.dropLast_eq_eraseIdx (by simp)).symm

/-- Witness for the amended C3 on concrete registries: a matching id is
removed at its first index, an absent id removes the last record. -/
theorem c3_remove_behavior_witness :
    tabUtils_remove demoTabs3 "a".data = demoTabs3.eraseIdx 0 ∧
    tabUtils_remove demoTabs3 "zz".data = demoTabs3.dropLast :=
  And.intro
    ((c3_remove_behavior demoTabs3 "a".data).1 0 (by decide))
    ((c3_remove_behavior demoTabs3 "zz".data).2 (by decide))

theorem mem_of_mem_jsSpliceOne (tabs : List TabRec) (start : Int) (r : TabRec)
    (h : r ∈ jsSpliceOne tabs start) : r ∈ tabs := by
  unfold jsSpliceOne at h
  exact (List.eraseIdx_sublist tabs _).mem h

theorem mem_of_mem_remove (tabs : List TabRec) (id : List Char) (r : TabRec)
    (h : r ∈ tabUtils_remove tabs id) : r ∈ tabs :=
  mem_of_mem_jsSpliceOne tabs _ r h

theorem statusValid_regStep (tabs : List TabRec) (op : RegOp)
    (hv : statusValid tabs) : statusValid (regStep tabs op) := by
  match op with
  | RegOp.add id ref =>
    intro r hr
    rcases List.mem_append.mp hr with h2 | h2
    · exact hv r h2
    · rcases List.mem_singleton.mp h2 with rfl
      exact Or.inl rfl
  | RegOp.remove id =>
    intro r hr
    exact hv r (mem_of_mem_remove tabs id r hr)

theorem statusValid_applyRegOps (ops : List RegOp) :
    ∀ tabs : List TabRec, statusValid tabs → statusValid (applyRegOps ops tabs) := by
  induction ops with
  | nil => exact fun tabs hv => hv
  | cons op rest ih =>
    intro tabs hv
    exact ih (regStep tabs op) (statusValid_regStep tabs op hv)

theorem partition_of_statusValid (tabs : List TabRec) (hv : statusValid tabs) :
    partitionOk tabs := by
  refine ⟨?_, ?_, hv⟩
  · intro r hr
    rcases hv r hr with hst | hst
    · refine Or.inl ⟨List.mem_filter.mpr ⟨hr, by simp [hst]⟩, ?_⟩
      intro hmem
      have := (List.mem_filter.mp hmem).2
      rw [hst] at this
      exact absurd this (by decide)
    · refine Or.inr ⟨List.mem_filter.mpr ⟨hr, by simp [hst]⟩, ?_⟩
      intro hmem
      have := (List.mem_filter.mp hmem).2
      rw [hst] at this
      exact absurd this (by decide)
  · have hperm := List.filter_append_perm (fun t => t.status == OPEN) tabs
    have hcongr : tabs.filter (fun t => !(t.status == OPEN)) =
        tabs.filter (fun t => t.status == CLOSE) := by
      apply List.filter_congr
      intro r hr
      rcases hv r hr with hst | hst <;> simp [hst] <;> decide
    unfold tabUtils_getOpened tabUtils_getClosed tabUtils_getAll
    rw [← hcongr]
    exact hperm

/-- Claim C5: starting from any registry whose statuses are within the
status enum, after any sequence of addNew (with a Tab.create record) and
remove operations, getOpened and getClosed partition getAll exactly and
no record carries a status outside the enum. -/
theorem c5_registry_partition (init : List TabRec) (hv : statusValid init)
    (ops : List RegOp) : partitionOk (applyRegOps ops init) :=
  partition_of_statusValid _ (statusValid_applyRegOps ops init hv)

/-- Witness for C5 on a concrete registry and operation sequence. -/
theorem c5_registry_partition_witness :
    partitionOk (applyRegOps demoOps5 demoInit5) :=
  c5_registry_partition demoInit5 (by decide) demoOps5

/-! Preservation of the terminal-CLOSE invariant by every parent-side
operation.  The combined invariant: statuses CLOSE only sit on closed
window handles, and all records with the tracked id are CLOSE. -/

abbrev termInv (tid : List Char) (tabs : List TabRec) : Prop :=
  closedRefInv tabs ∧ closedForId tid tabs

theorem mem_of_getElemOpt (l : List TabRec) (n : Nat) (a : TabRec)
    (h : l[n]? = some a) : a ∈ l := by
  obtain ⟨hlt, rfl⟩ := List.getElem?_eq_some_iff.mp h
  exact List.getElem_mem hlt

theorem termInv_of_subset (tid : List Char) (tabs tabs2 : List TabRec)
    (hsub : ∀ r, r ∈ tabs2 → r ∈ tabs) (h : termInv tid tabs) :
    termInv tid tabs2 :=
  ⟨fun r hr => h.1 r (hsub r hr), fun r hr => h.2 r (hsub r hr)⟩

theorem termInv_watchStatusAt (tid : List Char) (i : Nat) (tabs : List TabRec)
    (h : termInv tid tabs) : termInv tid (watchStatusAt i tabs) := by
  unfold watchStatusAt
  split
  · exact h
  · split
    · exact h
    · dsimp only
      split
      all_goals
        split
        · exact h
        · split
          · exact termInv_of_subset tid tabs _ (fun r hr => mem_of_mem_remove _ _ r hr) h
          · exact h

theorem termInv_updateStatusAt (tid : List Char) (i : Nat) (tabs : List TabRec)
    (h : termInv tid tabs) : termInv tid (updateStatusAt i tabs) := by
  unfold updateStatusAt
  split
  · exact h
  case h_2 t hget =>
    split
    · exact h
    case h_2 closed href =>
      have htmem : t ∈ tabs := mem_of_getElemOpt tabs i t hget
      cases closed with
      | true =>
        constructor
        · intro r hr hst
          rcases List.mem_or_eq_of_mem_set hr with h2 | h2
          · exact h.1 r h2 hst
          · subst h2
            simp [href]
        · intro r hr hid
          rcases List.mem_or_eq_of_mem_set hr with h2 | h2
          · exact h.2 r h2 hid
          · subst h2
            simp
      | false =>
        constructor
        · intro r hr hst
          rcases List.mem_or_eq_of_mem_set hr with h2 | h2
          · exact h.1 r h2 hst
          · subst h2
            simp only at hst
            rw [if_neg (by decide)] at hst
            exact absurd hst (by decide)
        · intro r hr hid
          rcases List.mem_or_eq_of_mem_set hr with h2 | h2
          · exact h.2 r h2 hid
          · subst h2
            simp only at hid
            have hstt : t.status = CLOSE := h.2 t htmem hid
            have hrefne : t.ref ≠ some false := h.1 t htmem hstt
            rw [href] at hrefne
            exact absurd rfl hrefne

theorem termInv_closeTab (tid : List Char) (id : List Char) (tabs : List TabRec)
    (h : termInv tid tabs) : termInv tid (tabUtils_closeTab tabs id) := by
  unfold tabUtils_closeTab
  split
  · exact h
  · split
    · exact h
    case h_2 j hget =>
      split
      · exact h
      case h_2 t b href =>
        constructor
        · intro r hr hst
          rcases List.mem_or_eq_of_mem_set hr with h2 | h2
          · exact h.1 r h2 hst
          · subst h2
            simp
        · intro r hr hid
          rcases List.mem_or_eq_of_mem_set hr with h2 | h2
          · exact h.2 r h2 hid
          · subst h2
            rfl

theorem termInv_closeAll (tid : List Char) (tabs : List TabRec)
    (h : termInv tid tabs) : termInv tid (tabUtils_closeAll tabs) := by
  unfold tabUtils_closeAll
  constructor
  · intro r hr hst
    obtain ⟨a, ha, rfl⟩ := List.mem_map.mp hr
    rcases hrefa : a.ref with _ | b
    · simp only [hrefa] at hst ⊢
      simp
    · simp [hrefa]
  · intro r hr hid
    obtain ⟨a, ha, rfl⟩ := List.mem_map.mp hr
    rcases hrefa : a.ref with _ | b
    · simp only [hrefa] at hid ⊢
      exact h.2 a ha hid
    · simp [hrefa]

theorem termInv_envCloseAt (tid : List Char) (i : Nat) (tabs : List TabRec)
    (h : termInv tid tabs) : termInv tid (envCloseAt i tabs) := by
  unfold envCloseAt
  split
  · exact h
  case h_2 t hget =>
    split
    · exact h
    case h_2 b href =>
      have htmem : t ∈ tabs := mem_of_getElemOpt tabs i t hget
      constructor
      · intro r hr hst
        rcases List.mem_or_eq_of_mem_set hr with h2 | h2
        · exact h.1 r h2 hst
        · subst h2
          simp
      · intro r hr hid
        rcases List.mem_or_eq_of_mem_set hr with h2 | h2
        · exact h.2 r h2 hid
        · subst h2
          exact h.2 t htmem hid

theorem termInv_addIntervalLoop (tid : List Char) (rct : Bool) :
    ∀ (fuel i : Nat) (tabs : List TabRec), termInv tid tabs →
      termInv tid (addIntervalLoop rct fuel i tabs) := by
  intro fuel
  induction fuel with
  | zero => exact fun i tabs h => h
  | succ f ih =>
    intro i tabs h
    unfold addIntervalLoop
    split
    · apply ih
      apply termInv_updateStatusAt
      split
      · exact termInv_watchStatusAt tid i tabs h
      · exact h
    · exact h

theorem termInv_pStep (tid : List Char) (tabs : List TabRec) (op : POp)
    (h : termInv tid tabs) : termInv tid (pStep tabs op) := by
  cases op with
  | closeTab id => exact termInv_closeTab tid id tabs h
  | closeAllTabs => exact termInv_closeAll tid tabs h
  | pollTick rct =>
    simp only [pStep, addIntervalTick]
    split
    · exact h
    · exact termInv_addIntervalLoop tid rct tabs.length 0 tabs h
  | watchStatusOp i => exact termInv_watchStatusAt tid i tabs h
  | envClose i => exact termInv_envCloseAt tid i tabs h

/-- Claim C2: in any registry satisfying the reachable-state invariant
(CLOSE statuses only on closed window handles), once every record with a
given id is CLOSE, no sequence of explicit closes, polling ticks,
watchStatus runs or environment window-closures ever turns a record with
that id back to OPEN. -/
theorem c2_close_terminal (tid : List Char) (init : List TabRec)
    (hinv : closedRefInv init) (hc : closedForId tid init) (ops : List POp) :
    closedForId tid (applyPOps ops init) := by
  suffices h : ∀ tabs : List TabRec, termInv tid tabs →
      termInv tid (applyPOps ops tabs) from (h init ⟨hinv, hc⟩).2
  induction ops with
  | nil => exact fun tabs h => h
  | cons op rest ih =>
    intro tabs h
    exact ih (pStep tabs op) (termInv_pStep tid tabs op h)

/-- Witness for C2 on a concrete registry and operation sequence. -/
theorem c2_close_terminal_witness :
    closedForId demoTid2 (applyPOps demoOps2 demoInit2) :=
  c2_close_terminal demoTid2 demoInit2 (by decide) (by decide) demoOps2

theorem uuidGenerate_ne_nil (r1 r2 r3 r4 r5 : Nat) :
    uuidGenerate r1 r2 r3 r4 r5 ≠ [] := by
  intro hcontra
  have hlen := congrArg List.length hcontra
  simp only [uuidGenerate, List.length_append, List.length_nil, List.length_cons] at hlen
  omega

theorem newTabRec_id_ne_nil (tabs : List TabRec) (r1 r2 r3 r4 r5 : Nat)
    (openRef : Option Bool) :
    (newTabRec tabs r1 r2 r3 r4 r5 openRef).id ≠ [] := by
  unfold newTabRec
  dsimp only
  split
  · exact uuidGenerate_ne_nil r1 r2 r3 r4 r5
  case isFalse hcond =>
    have : (uuidGenerate r1 r2 r3 r4 r5).isEmpty = true := by
      rcases hb : (uuidGenerate r1 r2 r3 r4 r5).isEmpty with _ | _
      · exact absurd (by rw [hb]; rfl) hcond
      · rfl
    exact absurd (List.isEmpty_iff.mp this) (uuidGenerate_ne_nil r1 r2 r3 r4 r5)

/-- Claim C6: openNewTab throws ConfigError when options are missing and
UrlRequiredError when the url is missing/falsy, leaving the registry
untouched in both cases; otherwise it appends exactly one new record with
status OPEN and a non-empty id, returns it, and ensures the polling loop
is running afterwards. -/
theorem c6_openNewTab (st : ParentState) (cfgOpt : Option OpenConfig)
    (r1 r2 r3 r4 r5 : Nat) (openRef : Option Bool) :
    (cfgOpt = none →
      openNewTab st cfgOpt r1 r2 r3 r4 r5 openRef
        = (st, Except.error JsError.configRequired)) ∧
    (∀ cfg, cfgOpt = some cfg → jsUrlFalsy cfg.url = true →
      openNewTab st cfgOpt r1 r2 r3 r4 r5 openRef
        = (st, Except.error JsError.urlRequired)) ∧
    (∀ cfg, cfgOpt = some cfg → jsUrlFalsy cfg.url = false →
      (openNewTab st cfgOpt r1 r2 r3 r4 r5 openRef).1.tabs
          = st.tabs ++ [newTabRec st.tabs r1 r2 r3 r4 r5 openRef] ∧
      (openNewTab st cfgOpt r1 r2 r3 r4 r5 openRef).2
          = Except.ok (newTabRec st.tabs r1 r2 r3 r4 r5 openRef) ∧
      (newTabRec st.tabs r1 r2 r3 r4 r5 openRef).status = OPEN ∧
      (newTabRec st.tabs r1 r2 r3 r4 r5 openRef).id ≠ [] ∧
      (openNewTab st cfgOpt r1 r2 r3 r4 r5 openRef).1.heartBeat = true) := by
  refine ⟨?_, ?_, ?_⟩
  · intro hnone
    subst hnone
    rfl
  · intro cfg hsome hfalsy
    subst hsome
    unfold openNewTab
    dsimp only
    rw [hfalsy, if_pos rfl]
  · intro cfg hsome hok
    subst hsome
    unfold openNewTab
    dsimp only
    rw [hok, if_neg (show ¬(false = true) by decide)]
    refine ⟨?_, rfl, rfl, newTabRec_id_ne_nil st.tabs r1 r2 r3 r4 r5 openRef, ?_⟩
    · split <;> rfl
    · split
      case isTrue hb => exact hb
      case isFalse hb => rfl

/-- Witness for C6: a successful openNewTab call on a concrete parent
state with the polling loop not yet running. -/
theorem c6_openNewTab_witness :
    (openNewTab demoPSt6 (some demoOpenCfg6) 1 2 3 4 5 (some false)).1.tabs
        = demoPSt6.tabs ++ [newTabRec demoPSt6.tabs 1 2 3 4 5 (some false)] ∧
    (openNewTab demoPSt6 (some demoOpenCfg6) 1 2 3 4 5 (some false)).2
        = Except.ok (newTabRec demoPSt6.tabs 1 2 3 4 5 (some false)) ∧
    (newTabRec demoPSt6.tabs 1 2 3 4 5 (some false)).status = OPEN ∧
    (newTabRec demoPSt6.tabs 1 2 3 4 5 (some false)).id ≠ [] ∧
    (openNewTab demoPSt6 (some demoOpenCfg6) 1 2 3 4 5 (some false)).1.heartBeat = true :=
  (c6_openNewTab demoPSt6 (some demoOpenCfg6) 1 2 3 4 5 (some false)).2.2
    demoOpenCfg6 rfl (by decide)

/-- Claim C10: constructing a new Parent resets the module-level tab list,
so getAllTabs returns the empty list immediately after any Parent
construction, whatever the prior registry contained. -/
theorem c10_constructor_wipes_registry (m : ModuleState) :
    parentGetAllTabs (parentConstructorReset m) = [] ∧
    (parentConstructorReset m).tabs = [] :=
  ⟨rfl, rfl⟩

/-! Projection lemmas for the child branches. -/

theorem childRunPD_proj (st : ChildState) (s : List Char) :
    (childRunPD st s).1.cfg = st.cfg ∧
    (childRunPD st s).1.storageSupported = st.storageSupported ∧
    (childRunPD st s).1.hasOpener = st.hasOpener ∧
    (childRunPD st s).1.store = st.store ∧
    (childRunPD st s).1.timeoutActive = st.timeoutActive ∧
    (childRunPD st s).1.tabId = st.tabId ∧
    (childRunPD st s).1.tabName = st.tabName ∧
    (childRunPD st s).1.tabParentName = st.tabParentName := by
  unfold childRunPD
  split <;> exact ⟨rfl, rfl, rfl, rfl, rfl, rfl, rfl, rfl⟩

theorem childSetData_timeout (st : ChildState) (d : List Char) :
    (childSetData st d).timeoutActive = st.timeoutActive := by
  unfold childSetData
  split <;> rfl

theorem childRunACK_timeout (st : ChildState) (s : List Char) :
    (childRunACK st s).1.timeoutActive = st.timeoutActive := by
  unfold childRunACK
  split
  · dsimp only
    split
    · exact childSetData_timeout st _
    · exact childSetData_timeout st _
  · rfl

/-- Claim C8: for every inbound message the child guard accepts (truthy
string payload, origin check passing), the handshake-expiry timer is
cancelled, whatever event tag the payload carries and even if it carries
none. -/
theorem c8_timer_cancelled (st : ChildState) (mdata : JVal) (morigin s : List Char)
    (hacc : childAccept st.cfg mdata morigin = some s) :
    (onCommunication st mdata morigin).st.timeoutActive = false := by
  unfold onCommunication
  rw [hacc]
  dsimp only
  have key : (childRunACK (childRunPD { st with timeoutActive := false } s).1 s).1.timeoutActive
      = false := by
    rw [childRunACK_timeout]
    exact (childRunPD_proj { st with timeoutActive := false } s).2.2.2.2.1
  split
  · exact key
  · exact key

/-- Witness for C8: a message with no recognized tag, matching origin. -/
theorem c8_timer_cancelled_witness :
    (onCommunication demoSt8 (JVal.jstr "junk".data) "https://p".data).st.timeoutActive
      = false :=
  c8_timer_cancelled demoSt8 (JVal.jstr "junk".data) "https://p".data "junk".data rfl

/-- Characterization of the HANDSHAKE_WITH_PARENT branch on an accepted
ack envelope, assuming sessionStorage support, an existing opener, a
payload free of further tag occurrences and a successful parse. -/
theorem childRunACK_ack (st : ChildState) (body : List Char) (v : JVal)
    (hsupp : st.storageSupported = true) (hop : st.hasOpener = true)
    (hbody : jsFindSplit HANDSHAKE_WITH_PARENT body = none)
    (hparse : st.cfg.parse body = some v) :
    childRunACK st (HANDSHAKE_WITH_PARENT ++ body) =
      ({ st with store := storeSet st.store sessionStorageKey body,
                 tabId := jand v (jget v idKey),
                 tabName := jand v (jget v nameKey),
                 tabParentName := jand v (jget v parentNameKey) },
       [HANDSHAKE ++ st.cfg.stringify
          (JVal.jobj [(idKey, jand v (jget v idKey)), (isfKey, st.cfg.isSiteInsideFrame)])],
       (if st.cfg.hasInitCb then [CbName.initCb] else []), none) := by
  have hs : (jsFindSplit HANDSHAKE_WITH_PARENT
      (HANDSHAKE_WITH_PARENT ++ body)).isSome = true := by
    rw [jsFindSplit_append_self HANDSHAKE_WITH_PARENT body (by decide)]
    rfl
  have hsplit2 : jsSplitSecond HANDSHAKE_WITH_PARENT (HANDSHAKE_WITH_PARENT ++ body)
      = some body := by
    unfold jsSplitSecond
    rw [jsFindSplit_append_self HANDSHAKE_WITH_PARENT body (by decide)]
    dsimp only
    rw [hbody]
  unfold childRunACK
  rw [if_pos hs, hsplit2]
  dsimp only [Option.getD]
  unfold childSetData
  rw [if_pos hsupp]
  dsimp only
  rw [hparse]
  dsimp only
  unfold childSendToParent
  dsimp only
  rw [hop, if_pos rfl]

/-- Claim C4: when the child accepts a HANDSHAKE_ACK envelope carrying an
identity object, its identity fields become exactly the carried id, name
and parentName, the raw identity string is stored under the fixed session
storage key, a HANDSHAKE envelope with the id and the isSiteInsideFrame
flag is posted back to the opener, and the expiry timer is cancelled. -/
theorem c4_handshake_ack (st : ChildState) (body morigin : List Char) (v : JVal)
    (hsupp : st.storageSupported = true) (hop : st.hasOpener = true)
    (hacc : childAccept st.cfg (JVal.jstr (HANDSHAKE_WITH_PARENT ++ body)) morigin
      = some (HANDSHAKE_WITH_PARENT ++ body))
    (hbody : jsFindSplit HANDSHAKE_WITH_PARENT body = none)
    (hparse : st.cfg.parse body = some v)
    (hv : jtruthy v = true) :
    (onCommunication st (JVal.jstr (HANDSHAKE_WITH_PARENT ++ body)) morigin).st.tabId
        = jget v idKey ∧
    (onCommunication st (JVal.jstr (HANDSHAKE_WITH_PARENT ++ body)) morigin).st.tabName
        = jget v nameKey ∧
    (onCommunication st (JVal.jstr (HANDSHAKE_WITH_PARENT ++ body)) morigin).st.tabParentName
        = jget v parentNameKey ∧
    (onCommunication st (JVal.jstr (HANDSHAKE_WITH_PARENT ++ body)) morigin).st.store
        = storeSet st.store sessionStorageKey body ∧
    (HANDSHAKE ++ st.cfg.stringify
        (JVal.jobj [(idKey, jget v idKey), (isfKey, st.cfg.isSiteInsideFrame)]))
      ∈ (onCommunication st (JVal.jstr (HANDSHAKE_WITH_PARENT ++ body)) morigin).posted ∧
    (onCommunication st (JVal.jstr (HANDSHAKE_WITH_PARENT ++ body)) morigin).st.timeoutActive
        = false := by
  unfold onCommunication
  rw [hacc]
  dsimp only
  obtain ⟨hcfg, hsupp2, hop2, hstore2, htime2, _, _, _⟩ :=
    childRunPD_proj { st with timeoutActive := false } (HANDSHAKE_WITH_PARENT ++ body)
  rw [childRunACK_ack _ body v (by rw [hsupp2]; exact hsupp) (by rw [hop2]; exact hop)
    hbody (by rw [hcfg]; exact hparse)]
  dsimp only
  have hjand : ∀ x : JVal, jand v x = x := by
    intro x
    unfold jand
    rw [hv, if_pos rfl]
  refine ⟨by rw [hjand], by rw [hjand], by rw [hjand], by rw [hstore2], ?_, ?_⟩
  · rw [hcfg, hjand]
    exact List.mem_singleton.mpr rfl
  · rw [htime2]

/-- Witness for C4 on a concrete child state and ack envelope. -/
theorem c4_handshake_ack_witness :
    (onCommunication demoSt4 (JVal.jstr (HANDSHAKE_WITH_PARENT ++ demoBody4)) "o".data).st.tabId
        = jget demoObj4 idKey ∧
    (onCommunication demoSt4 (JVal.jstr (HANDSHAKE_WITH_PARENT ++ demoBody4)) "o".data).st.tabName
        = jget demoObj4 nameKey ∧
    (onCommunication demoSt4 (JVal.jstr (HANDSHAKE_WITH_PARENT ++ demoBody4)) "o".data).st.tabParentName
        = jget demoObj4 parentNameKey ∧
    (onCommunication demoSt4 (JVal.jstr (HANDSHAKE_WITH_PARENT ++ demoBody4)) "o".data).st.store
        = storeSet demoSt4.store sessionStorageKey demoBody4 ∧
    (HANDSHAKE ++ demoSt4.cfg.stringify
        (JVal.jobj [(idKey, jget demoObj4 idKey), (isfKey, demoSt4.cfg.isSiteInsideFrame)]))
      ∈ (onCommunication demoSt4 (JVal.jstr (HANDSHAKE_WITH_PARENT ++ demoBody4)) "o".data).posted ∧
    (onCommunication demoSt4 (JVal.jstr (HANDSHAKE_WITH_PARENT ++ demoBody4)) "o".data).st.timeoutActive
        = false :=
  c4_handshake_ack demoSt4 demoBody4 "o".data demoObj4 rfl rfl rfl (by decide) rfl rfl

/-- Claim C9, evaluated at the failing input: after the child processes a
PARENT_DISCONNECTED envelope, the disconnect callback has run, but the
registered message listener is still attached (removeEventListener was
handed a freshly created arrow function), so a subsequent
PARENT_COMMUNICATED message is still processed and still reaches the
parent-communication callback. -/
theorem c9_disconnect_listener_not_removed :
    demoOut9.calls = [CbName.parentDisconnectCb] ∧
    demoOut9.st.msgListeners = demoSt9b.msgListeners ∧
    demoSt9b.msgListeners ≠ [] ∧
    demoOut9b.calls = [CbName.parentCommCb] :=
  ⟨rfl, rfl, by decide, rfl⟩

end XTabs
